import Mathlib

/-!
Verification of the Inworld TTS streaming client
(`ten_packages/extension/inworld_tts_python`: `inworld_tts.py` and
`extension.py`).  The development shallowly embeds the newline-delimited
streaming decoder, the per-exchange synthesizer event emission, the
dispatcher loop and the flush operation, and proves the spec's claims
about them.
-/

/-- A byte, as in a Python `bytes` object (value in 0..255; the embedding
uses `Nat` and never constructs values above 255). -/
abbrev Byte := Nat

/-- A Python `bytes` value. -/
abbrev Bytes := List Byte

/-- Whitespace bytes stripped by Python's `bytes.strip()`:
space, tab, newline, carriage return, vertical tab, form feed. -/
def isSpaceByte (b : Byte) : Bool :=
  b == 32 || b == 9 || b == 10 || b == 13 || b == 11 || b == 12

/-- Python `line.strip()` on bytes: remove leading and trailing whitespace. -/
def stripBytes (bs : Bytes) : Bytes :=
  ((bs.dropWhile isSpaceByte).reverse.dropWhile isSpaceByte).reverse

/-- Abstract outcome of handling one decoded line of the response:
`json.loads(line.decode("utf-8"))` followed by
`data.get("result", {}).get("audioContent")` and, when that field is
truthy, `base64.b64decode(audio_content)` (`inworld_tts.py` lines
159-164, `extension.py` lines 158-163).  The JSON/base64 machinery is
Python standard library, so it is abstracted into the four outcomes the
decode loop distinguishes. -/
inductive LineParse where
  /-- `json.loads` raises `json.JSONDecodeError` (caught by the loop). -/
  | jsonError : LineParse
  /-- The record parses but `audioContent` is absent or falsy: no payload. -/
  | noAudio : LineParse
  /-- The record parses and `audioContent` base64-decodes to `content`. -/
  | audio (content : Bytes) : LineParse
  /-- Handling the parsed line raises an exception that is NOT a
  `json.JSONDecodeError` and hence is not caught by the decode loop:
  a `UnicodeDecodeError` from `.decode`, an `AttributeError` from a
  non-dict record, or a `binascii.Error` from `base64.b64decode`. -/
  | raised (msg : String) : LineParse
deriving DecidableEq

/-- Is this outcome an uncaught exception? -/
def LineParse.isRaised : LineParse → Bool
  | .raised _ => true
  | _ => false

/-- The 4-byte WAV container signature `b"RIFF"`. -/
def riff : Bytes := [82, 73, 70, 70]

/-- Header normalization (`inworld_tts.py` lines 167-168):
`if len(audio_bytes) > 44 and audio_bytes[:4] == b"RIFF": audio_bytes = audio_bytes[44:]`. -/
def stripWavHeader (audio : Bytes) : Bytes :=
  if 44 < audio.length ∧ audio.take 4 = riff then audio.drop 44 else audio

/-- The body of the decode loop for one (already stripped, non-empty)
line (`inworld_tts.py` lines 159-175): a `jsonError` is caught
(`except json.JSONDecodeError: continue`) and yields nothing, a missing
payload yields nothing, a decoded payload is header-normalized and
emitted unless empty, and any other exception propagates (`.error`). -/
def processLine (parse : Bytes → LineParse) (line : Bytes) : Except String (List Bytes) :=
  match parse line with
  | .jsonError => .ok []
  | .noAudio => .ok []
  | .raised m => .error m
  | .audio content =>
    if (stripWavHeader content).isEmpty then .ok []
    else .ok [stripWavHeader content]

/-- Split a buffer at every newline byte (10): the source loop
`while b"\n" in buffer: line, buffer = buffer.split(b"\n", 1)` takes the
prefix before the first newline as a line repeatedly; `splitLines`
computes all complete lines at once together with the trailing partial
data after the last newline. -/
def splitLines : Bytes → List Bytes × Bytes
  | [] => ([], [])
  | b :: rest =>
    if b = 10 then ([] :: (splitLines rest).1, (splitLines rest).2)
    else
      match (splitLines rest).1 with
      | [] => ([], b :: (splitLines rest).2)
      | l :: ls => ((b :: l) :: ls, (splitLines rest).2)

/-- Fold the per-line body over a list of complete lines: empty lines
(after stripping) are skipped (`if not line: continue`), an uncaught
exception aborts the rest of the lines, and payloads are emitted in line
order. -/
def processLines (parse : Bytes → LineParse) : List Bytes → List Bytes × Option String
  | [] => ([], none)
  | l :: ls =>
    if (stripBytes l).isEmpty then processLines parse ls
    else
      match processLine parse (stripBytes l) with
      | .error m => ([], some m)
      | .ok outs => (outs ++ (processLines parse ls).1, (processLines parse ls).2)

/-- Result of draining all complete lines from the buffer: emitted
payloads in order, the remaining partial buffer, and the uncaught
exception if one was raised (in which case the local buffer no longer
exists, modelled as `[]`). -/
structure DrainResult where
  outs : List Bytes
  rem : Bytes
  exn : Option String
deriving DecidableEq

/-- One pass of the inner `while b"\n" in buffer` loop
(`inworld_tts.py` lines 153-175): process every complete line of
`buffer`, keep the trailing partial data. -/
def drainLines (parse : Bytes → LineParse) (buffer : Bytes) : DrainResult :=
  match processLines parse (splitLines buffer).1 with
  | (outs, some m) => ⟨outs, [], some m⟩
  | (outs, none) => ⟨outs, (splitLines buffer).2, none⟩

/-- The chunk loop `async for chunk in response.content.iter_any():
buffer += chunk; <drain lines>` (`inworld_tts.py` lines 148-175): the
remaining buffer is carried from one chunk arrival to the next; an
uncaught exception aborts the iteration. -/
def feedChunks (parse : Bytes → LineParse) (buffer : Bytes) : List Bytes → DrainResult
  | [] => ⟨[], buffer, none⟩
  | c :: cs =>
    match drainLines parse (buffer ++ c) with
    | ⟨outs, rem, some m⟩ => ⟨outs, rem, some m⟩
    | ⟨outs, rem, none⟩ =>
      ⟨outs ++ (feedChunks parse rem cs).outs,
       (feedChunks parse rem cs).rem,
       (feedChunks parse rem cs).exn⟩

/-- End-of-stream handling of the final buffer (`inworld_tts.py` lines
177-191): if the buffer is non-whitespace, the whole raw buffer goes
through the same parse-as-one-unit path; only `json.JSONDecodeError` is
caught (`pass`), and a payload that survives header stripping non-empty
is emitted. -/
def processRemainder (parse : Bytes → LineParse) (buffer : Bytes) :
    List Bytes × Option String :=
  if (stripBytes buffer).isEmpty then ([], none)
  else
    match processLine parse buffer with
    | .error m => ([], some m)
    | .ok outs => (outs, none)

/-- The complete decode of one response body: the chunk loop followed by
the remainder block (skipped when the loop raised). -/
def decodeStream (parse : Bytes → LineParse) (chunks : List Bytes) :
    List Bytes × Option String :=
  match feedChunks parse [] chunks with
  | ⟨outs, _, some m⟩ => (outs, some m)
  | ⟨outs, rem, none⟩ =>
    (outs ++ (processRemainder parse rem).1, (processRemainder parse rem).2)

/-- A response stream of lines, each terminated by a newline byte. -/
def mkStream (ls : List Bytes) : Bytes :=
  (ls.map (fun l => l ++ [10])).flatten

/-- The payloads one complete line contributes when it does not raise. -/
def lineOuts (parse : Bytes → LineParse) (l : Bytes) : List Bytes :=
  if (stripBytes l).isEmpty then []
  else
    match processLine parse (stripBytes l) with
    | .error _ => []
    | .ok outs => outs

/-- Error kinds used by `ModuleErrorCode` in the two variants. -/
inductive ErrorCode where
  | fatalError : ErrorCode
  | vendorError : ErrorCode
  | networkError : ErrorCode
  | runtimeError : ErrorCode
deriving DecidableEq

/-- Reasons carried by `send_tts_audio_end` (`TTSAudioEndReason`). -/
inductive EndReason where
  | requestEnd : EndReason
  | interrupted : EndReason
deriving DecidableEq

/-- Events emitted by the extension variant (`extension.py`).
Modelled from the spec: the base-class sinks `send_tts_audio_start`,
`send_tts_audio_data`, `send_tts_audio_end` and `send_tts_error` live in
`ten_ai_base` (not under the sources verified here); spec section 3
describes the OutputSink as "an ordered channel of tagged events", so
each send appends exactly one tagged event.  `send_tts_audio_data`
carries no request id in the source, matching `audioData` here. -/
inductive TTSEvent where
  | audioStart (requestId : String)
  | audioData (bytes : Bytes)
  | audioEnd (requestId : String) (reason : EndReason)
  | errorEvt (requestId : String) (code : ErrorCode) (msg : String)
deriving DecidableEq

/-- Events emitted by the client variant (`inworld_tts.py`): a put of
`(audio_bytes, False, request_id)` on `response_msgs`, a put of
`(b"", True, request_id)` as the end marker, or an `error_callback`
invocation. -/
inductive ClientEvent where
  | audioChunk (bytes : Bytes) (requestId : String)
  | endMarker (requestId : String)
  | errorCb (requestId : String) (code : ErrorCode) (msg : String)
deriving DecidableEq

/-- The `first_audio` latch of `extension.py` (lines 128, 171-173,
189-191): before emitting each non-empty payload, emit `audioStart`
exactly when the latch is still set, then clear it.  Returns the events
for a run of payloads and the final latch value. -/
def emitRun (rid : String) : Bool → List Bytes → List TTSEvent × Bool
  | fa, [] => ([], fa)
  | fa, p :: ps =>
    ((if fa then [TTSEvent.audioStart rid, TTSEvent.audioData p]
      else [TTSEvent.audioData p]) ++ (emitRun rid false ps).1,
     (emitRun rid false ps).2)

/-- One HTTP exchange as seen by the synthesizer: the response status,
the result of `await response.text()` on the error path (`.error m`
models an `aiohttp.ClientError` with message `m` raised while reading
the body), the body chunks delivered by `iter_any()`, and an optional
`aiohttp.ClientError` raised by the stream after the delivered chunks. -/
structure Exchange where
  status : Nat
  bodyText : Except String String
  chunks : List Bytes
  midStreamError : Option String

/-- `InworldTTSExtension._synthesize` (`extension.py` lines 104-208),
given the exchange: non-200 status reads the body and emits one error
event (a `ClientError` when reading the body is caught by the outer
`except aiohttp.ClientError` and reported as `NETWORK_ERROR`); on 200
the body is decoded incrementally with the `first_audio` latch, a
mid-stream `ClientError` is reported as `NETWORK_ERROR`, and an
exception from the decode loop escapes (second component `some m`). -/
def synthesizeExt (rid : String) (parse : Bytes → LineParse) (ex : Exchange) :
    List TTSEvent × Option String :=
  if ex.status ≠ 200 then
    match ex.bodyText with
    | .ok _ =>
      ([TTSEvent.errorEvt rid ErrorCode.vendorError
          ("API error: " ++ toString ex.status)], none)
    | .error m => ([TTSEvent.errorEvt rid ErrorCode.networkError m], none)
  else
    match feedChunks parse [] ex.chunks with
    | ⟨outs, _, some m⟩ => ((emitRun rid true outs).1, some m)
    | ⟨outs, rem, none⟩ =>
      match ex.midStreamError with
      | some m =>
        ((emitRun rid true outs).1 ++
          [TTSEvent.errorEvt rid ErrorCode.networkError m], none)
      | none =>
        ((emitRun rid true outs).1 ++
          (emitRun rid (emitRun rid true outs).2 (processRemainder parse rem).1).1,
         (processRemainder parse rem).2)

/-- `InworldTTSClient._synthesize_stream` (`inworld_tts.py` lines
107-202): same control flow as the extension variant, but payloads are
put on `response_msgs` (no audio-start latch) and the non-200 error
message includes the error body text. -/
def synthesizeClient (rid : String) (parse : Bytes → LineParse) (ex : Exchange) :
    List ClientEvent × Option String :=
  if ex.status ≠ 200 then
    match ex.bodyText with
    | .ok body =>
      ([ClientEvent.errorCb rid ErrorCode.vendorError
          ("API error: " ++ toString ex.status ++ " - " ++ body)], none)
    | .error m => ([ClientEvent.errorCb rid ErrorCode.networkError m], none)
  else
    match feedChunks parse [] ex.chunks with
    | ⟨outs, _, some m⟩ => (outs.map (fun b => ClientEvent.audioChunk b rid), some m)
    | ⟨outs, rem, none⟩ =>
      match ex.midStreamError with
      | some m =>
        (outs.map (fun b => ClientEvent.audioChunk b rid) ++
          [ClientEvent.errorCb rid ErrorCode.networkError m], none)
      | none =>
        (outs.map (fun b => ClientEvent.audioChunk b rid) ++
          (processRemainder parse rem).1.map (fun b => ClientEvent.audioChunk b rid),
         (processRemainder parse rem).2)

/-- One queued text submission (`send_text` puts exactly the keys
`text`, `request_id`, `is_end`). -/
structure TextUnit where
  text : String
  requestId : String
  isEnd : Bool
deriving DecidableEq

/-- The body of one iteration of `InworldTTSClient._process_loop`
(`inworld_tts.py` lines 78-105) on one dequeued unit, given the current
request id: a unit with empty text and `is_end` false is dropped before
`cur_request_id` is updated; otherwise `cur_request_id` becomes the
unit's request id, non-empty text runs one exchange (any exception it
raises is caught at the loop level and reported via `error_callback`
with `RUNTIME_ERROR` under the current request id, skipping the
end-marker), and `is_end` puts the `(b"", True, request_id)` marker.
Returns the emitted events, the new `cur_request_id`, and whether a
network exchange was performed. -/
def processUnit (parse : Bytes → LineParse) (ex : Exchange) (cur : String)
    (u : TextUnit) : List ClientEvent × String × Bool :=
  if u.text = "" ∧ u.isEnd = false then ([], cur, false)
  else if u.text = "" then
    ((if u.isEnd then [ClientEvent.endMarker u.requestId] else []),
     u.requestId, false)
  else
    match synthesizeClient u.requestId parse ex with
    | (evs, some m) =>
      (evs ++ [ClientEvent.errorCb u.requestId ErrorCode.runtimeError m],
       u.requestId, true)
    | (evs, none) =>
      ((if u.isEnd then evs ++ [ClientEvent.endMarker u.requestId] else evs),
       u.requestId, true)

/-- The dispatcher loop over a queue of units (`_process_loop`): each
unit is processed to completion before the next is dequeued, and the
current request id persists across iterations. -/
def processLoop (parse : Bytes → LineParse) (exOf : TextUnit → Exchange) :
    String → List TextUnit → List ClientEvent × String
  | cur, [] => ([], cur)
  | cur, u :: us =>
    ((processUnit parse (exOf u) cur u).1 ++
      (processLoop parse exOf (processUnit parse (exOf u) cur u).2.1 us).1,
     (processLoop parse exOf (processUnit parse (exOf u) cur u).2.1 us).2)

/-- `InworldTTSExtension.request_tts` (`extension.py` lines 84-102) on
one unit: empty text with `text_input_end` false is dropped; non-empty
text runs `_synthesize` (whose uncaught exceptions escape `request_tts`,
skipping the audio-end); `text_input_end` sends
`send_tts_audio_end(..., REQUEST_END)`.  Returns the events, the
escaped exception, and whether a network exchange was performed. -/
def requestTTS (parse : Bytes → LineParse) (ex : Exchange) (u : TextUnit) :
    List TTSEvent × Option String × Bool :=
  if u.text = "" ∧ u.isEnd = false then ([], none, false)
  else if u.text = "" then
    ((if u.isEnd then [TTSEvent.audioEnd u.requestId EndReason.requestEnd] else []),
     none, false)
  else
    match synthesizeExt u.requestId parse ex with
    | (evs, some m) => (evs, some m, true)
    | (evs, none) =>
      ((if u.isEnd then evs ++ [TTSEvent.audioEnd u.requestId EndReason.requestEnd]
        else evs), none, true)

/-- A sequence of `request_tts` calls, each on its own exchange; an
exchange whose exception escapes ends the sequence. -/
def requestSeq (parse : Bytes → LineParse) (exOf : TextUnit → Exchange) :
    List TextUnit → List TTSEvent
  | [] => []
  | u :: us =>
    match requestTTS parse (exOf u) u with
    | (evs, some _, _) => evs
    | (evs, none, _) => evs ++ requestSeq parse exOf us

/-- The client's mutable state visible to `flush`
(`inworld_tts.py` fields set in `__init__` plus the locals of an
exchange in flight: its request id and decode buffer). -/
structure ClientState where
  queue : List TextUnit
  curRequestId : String
  running : Bool
  sessionOpen : Bool
  inFlight : Option (String × Bytes)
deriving DecidableEq

/-- The drain loop of `InworldTTSClient.flush` (`inworld_tts.py` lines
212-218): `while not self.text_input_queue.empty(): get_nowait()`. -/
def flushQueue : List TextUnit → List TextUnit
  | [] => []
  | _ :: rest => flushQueue rest

/-- `flush` acts on the client state only through the drain loop on
`text_input_queue`. -/
def flush (s : ClientState) : ClientState :=
  { s with queue := flushQueue s.queue }

/-- Predicate: the event is `audioStart` for this request id. -/
def isStart (rid : String) (e : TTSEvent) : Bool :=
  match e with
  | .audioStart r => r == rid
  | _ => false

/-- Predicate: the event is an `audioData` frame. -/
def isData (e : TTSEvent) : Bool :=
  match e with
  | .audioData _ => true
  | _ => false

/-- Predicate: the event is an `audioEnd` marker. -/
def isAudioEnd (e : TTSEvent) : Bool :=
  match e with
  | .audioEnd _ _ => true
  | _ => false

/-- Predicate: the event is an error event of the given kind. -/
def isErrorKind (code : ErrorCode) (e : TTSEvent) : Bool :=
  match e with
  | .errorEvt _ c _ => c == code
  | _ => false

/-- Predicate: the client event is an error callback of the given kind. -/
def isClientErrorKind (code : ErrorCode) (e : ClientEvent) : Bool :=
  match e with
  | .errorCb _ c _ => c == code
  | _ => false

/-! ### Lemmas about the line splitter -/

theorem splitLines_no10 {bs : Bytes} (h : (10 : Byte) ∉ bs) :
    splitLines bs = ([], bs) := by
  induction bs with
  | nil => rfl
  | cons b rest ih =>
    simp only [List.mem_cons, not_or] at h
    have hb : ¬ (b = 10) := fun hh => h.1 hh.symm
    simp [splitLines, hb, ih h.2]

theorem splitLines_rem_no10 (bs : Bytes) : (10 : Byte) ∉ (splitLines bs).2 := by
  induction bs with
  | nil => simp [splitLines]
  | cons b rest ih =>
    by_cases hb : b = 10
    · simpa [splitLines, hb] using ih
    · simp only [splitLines, if_neg hb]
      cases hsp : (splitLines rest).1 with
      | nil =>
        simp only [List.mem_cons, not_or]
        exact ⟨fun hh => hb hh.symm, ih⟩
      | cons l ls => simpa using ih

theorem splitLines_line_cons {l : Bytes} (c : Bytes) (h : (10 : Byte) ∉ l) :
    splitLines (l ++ 10 :: c) = (l :: (splitLines c).1, (splitLines c).2) := by
  induction l with
  | nil => simp [splitLines]
  | cons x l ih =>
    simp only [List.mem_cons, not_or] at h
    have hx : ¬ (x = 10) := fun hh => h.1 hh.symm
    simp [splitLines, hx, ih h.2]

theorem splitLines_append (b c : Bytes) :
    splitLines (b ++ c) =
      ((splitLines b).1 ++ (splitLines ((splitLines b).2 ++ c)).1,
       (splitLines ((splitLines b).2 ++ c)).2) := by
  induction b with
  | nil => simp [splitLines]
  | cons x b ih =>
    have ih1 : (splitLines (b ++ c)).1 =
        (splitLines b).1 ++ (splitLines ((splitLines b).2 ++ c)).1 := by rw [ih]
    have ih2 : (splitLines (b ++ c)).2 =
        (splitLines ((splitLines b).2 ++ c)).2 := by rw [ih]
    by_cases hx : x = 10
    · subst hx
      simp [splitLines, ih1, ih2]
    · cases hsp : (splitLines b).1 with
      | nil =>
        cases hq : (splitLines ((splitLines b).2 ++ c)).1 with
        | nil => simp [splitLines, if_neg hx, ih1, ih2, hsp, hq]
        | cons q qs => simp [splitLines, if_neg hx, ih1, ih2, hsp, hq]
      | cons l ls =>
        simp [splitLines, if_neg hx, ih1, ih2, hsp]

/-! ### Lemmas about line processing and draining -/

theorem processLines_append (parse : Bytes → LineParse) (L1 L2 : List Bytes) :
    processLines parse (L1 ++ L2) =
      match processLines parse L1 with
      | (o1, some m) => (o1, some m)
      | (o1, none) =>
        (o1 ++ (processLines parse L2).1, (processLines parse L2).2) := by
  induction L1 with
  | nil => simp [processLines]
  | cons l ls ih =>
    by_cases hs : (stripBytes l).isEmpty
    · simpa [processLines, hs] using ih
    · cases hp : processLine parse (stripBytes l) with
      | error m => simp [processLines, hs, hp]
      | ok outs =>
        cases hq : processLines parse ls with
        | mk o e =>
          cases e with
          | none => simp [processLines, hs, hp, ih, hq]
          | some m => simp [processLines, hs, hp, ih, hq]

theorem drainLines_append (parse : Bytes → LineParse) (b c : Bytes) :
    drainLines parse (b ++ c) =
      match (drainLines parse b).exn with
      | some _ => drainLines parse b
      | none =>
        ⟨(drainLines parse b).outs ++
           (drainLines parse ((drainLines parse b).rem ++ c)).outs,
         (drainLines parse ((drainLines parse b).rem ++ c)).rem,
         (drainLines parse ((drainLines parse b).rem ++ c)).exn⟩ := by
  have hsp := splitLines_append b c
  have hpl := processLines_append parse (splitLines b).1
    (splitLines ((splitLines b).2 ++ c)).1
  cases hb : processLines parse (splitLines b).1 with
  | mk o1 e1 =>
    cases e1 with
    | some m =>
      simp only [drainLines, hsp, hpl, hb]
    | none =>
      cases hc : processLines parse (splitLines ((splitLines b).2 ++ c)).1 with
      | mk o2 e2 =>
        cases e2 with
        | some m =>
          simp only [drainLines, hsp, hpl, hb, hc]
        | none =>
          simp only [drainLines, hsp, hpl, hb, hc]

theorem drain_no10 (parse : Bytes → LineParse) {buffer : Bytes}
    (h : (10 : Byte) ∉ buffer) :
    drainLines parse buffer = ⟨[], buffer, none⟩ := by
  simp [drainLines, splitLines_no10 h, processLines]

theorem drain_rem_no10 (parse : Bytes → LineParse) (b : Bytes) :
    (10 : Byte) ∉ (drainLines parse b).rem := by
  cases hp : processLines parse (splitLines b).1 with
  | mk o e =>
    cases e with
    | some m => simp [drainLines, hp]
    | none => simpa [drainLines, hp] using splitLines_rem_no10 b

theorem feedChunks_eq (parse : Bytes → LineParse) (cs : List Bytes) :
    ∀ buffer : Bytes, (10 : Byte) ∉ buffer →
      feedChunks parse buffer cs = drainLines parse (buffer ++ cs.flatten) := by
  induction cs with
  | nil =>
    intro buffer h
    simp [feedChunks, drain_no10 parse h]
  | cons c cs ih =>
    intro buffer h
    have happ := drainLines_append parse (buffer ++ c) cs.flatten
    cases hd : drainLines parse (buffer ++ c) with
    | mk outs rem exn =>
      rw [hd] at happ
      cases exn with
      | some m =>
        simp only [feedChunks, hd, List.flatten_cons, ← List.append_assoc, happ]
      | none =>
        have hrem : (10 : Byte) ∉ rem := by
          have := drain_rem_no10 parse (buffer ++ c)
          rwa [hd] at this
        simp only [feedChunks, hd, List.flatten_cons, ← List.append_assoc, happ,
          ih rem hrem]

/-- Claim C1: chunking invariance of the line-buffered decoder — feeding
a byte stream split into arbitrary sub-chunks (carrying the remaining
buffer between calls) produces exactly the same ordered payload sequence
(and the same final state) as feeding the concatenation in one chunk;
this holds for the chunk loop alone and for the complete decode
including the end-of-stream remainder. -/
theorem c1_decode_chunk_invariance (parse : Bytes → LineParse) (chunks : List Bytes) :
    feedChunks parse [] chunks = feedChunks parse [] [chunks.flatten] ∧
    decodeStream parse chunks = decodeStream parse [chunks.flatten] := by
  have h1 : feedChunks parse [] chunks = drainLines parse chunks.flatten := by
    simpa using feedChunks_eq parse chunks [] (by simp)
  have h2 : feedChunks parse [] [chunks.flatten] = drainLines parse chunks.flatten := by
    simpa using feedChunks_eq parse [chunks.flatten] [] (by simp)
  refine ⟨h1.trans h2.symm, ?_⟩
  unfold decodeStream
  rw [h1, h2]

/-- Claim C3: header normalization — a decoded payload longer than 44
bytes starting with `RIFF` has exactly its first 44 bytes removed; any
other payload passes through unmodified; inside the per-line handler the
strip is applied exactly once and a payload that is empty afterwards is
dropped (no emission). -/
theorem c3_header_normalization (a b c l : Bytes) (parse : Bytes → LineParse)
    (h1 : 44 < a.length) (h2 : a.take 4 = riff)
    (h3 : ¬(44 < b.length ∧ b.take 4 = riff))
    (h4 : parse l = LineParse.audio c) :
    stripWavHeader a = a.drop 44 ∧
    stripWavHeader b = b ∧
    processLine parse l =
      Except.ok (if (stripWavHeader c).isEmpty then [] else [stripWavHeader c]) := by
  refine ⟨?_, ?_, ?_⟩
  · unfold stripWavHeader
    rw [if_pos ⟨h1, h2⟩]
  · unfold stripWavHeader
    rw [if_neg h3]
  · simp only [processLine, h4]
    by_cases h5 : (stripWavHeader c).isEmpty <;> simp [h5]

/-- Witness for C3 at a 45-byte `RIFF` payload, a 1-byte payload, and a
line decoding to the empty payload. -/
theorem c3_header_normalization_witness :
    stripWavHeader ([82, 73, 70, 70] ++ List.replicate 41 0) =
      ([82, 73, 70, 70] ++ List.replicate 41 0).drop 44 ∧
    stripWavHeader [0] = [0] ∧
    processLine (fun _ => LineParse.audio []) [65] =
      Except.ok (if (stripWavHeader []).isEmpty then [] else [stripWavHeader []]) :=
  c3_header_normalization ([82, 73, 70, 70] ++ List.replicate 41 0) [0] [] [65]
    (fun _ => LineParse.audio []) (by decide) (by decide) (by decide) rfl

/-- Claim C8: end-of-stream handling — the final buffer, when
non-whitespace, goes through the same single-unit parse path without
needing a trailing newline, so a valid final unit is decoded and
emitted; a non-JSON remainder is silently discarded, contributing no
payload and raising nothing. -/
theorem c8_end_of_stream (parse : Bytes → LineParse) (buffer a buf2 : Bytes)
    (h1 : (stripBytes buffer).isEmpty = false)
    (h2 : parse buffer = LineParse.audio a)
    (h3 : (stripWavHeader a).isEmpty = false)
    (h4 : parse buf2 = LineParse.jsonError) :
    processRemainder parse buffer = ([stripWavHeader a], none) ∧
    processRemainder parse buf2 = ([], none) := by
  constructor
  · simp [processRemainder, h1, processLine, h2, h3]
  · by_cases h5 : (stripBytes buf2).isEmpty
    · simp [processRemainder, h5]
    · simp [processRemainder, h5, processLine, h4]

/-- Witness for C8: a final buffer decoding to the payload `[7]` and an
unparseable final buffer. -/
theorem c8_end_of_stream_witness :
    processRemainder
        (fun l => if l = [65] then LineParse.audio [7] else LineParse.jsonError)
        [65] = ([stripWavHeader [7]], none) ∧
    processRemainder
        (fun l => if l = [65] then LineParse.audio [7] else LineParse.jsonError)
        [66] = ([], none) :=
  c8_end_of_stream
    (fun l => if l = [65] then LineParse.audio [7] else LineParse.jsonError)
    [65] [7] [66] (by decide) (by decide) (by decide) (by decide)

theorem flushQueue_nil (q : List TextUnit) : flushQueue q = [] := by
  induction q with
  | nil => rfl
  | cons u us ih => simpa [flushQueue] using ih

/-- Claim C9: `flush` empties the pending queue and changes nothing
else — the current request id, the running flag, the connection session
and any in-flight exchange state are untouched. -/
theorem c9_flush_queue_only (s : ClientState) :
    (flush s).queue = [] ∧
    (flush s).curRequestId = s.curRequestId ∧
    (flush s).running = s.running ∧
    (flush s).sessionOpen = s.sessionOpen ∧
    (flush s).inFlight = s.inFlight := by
  refine ⟨?_, rfl, rfl, rfl, rfl⟩
  simp [flush, flushQueue_nil]

/-- Claim C6: a unit with empty text and `isEnd = true` produces exactly
the end marker for its request id with no network call (in both the
client dispatcher and the extension `request_tts`), and a unit with
empty text and `isEnd = false` is a silent no-op. -/
theorem c6_empty_text_units (parse : Bytes → LineParse) (ex : Exchange)
    (cur rid : String) :
    processUnit parse ex cur ⟨"", rid, true⟩ =
      ([ClientEvent.endMarker rid], rid, false) ∧
    requestTTS parse ex ⟨"", rid, true⟩ =
      ([TTSEvent.audioEnd rid EndReason.requestEnd], none, false) ∧
    processUnit parse ex cur ⟨"", rid, false⟩ = ([], cur, false) ∧
    requestTTS parse ex ⟨"", rid, false⟩ = ([], none, false) := by
  refine ⟨?_, ?_, ?_, ?_⟩ <;> simp [processUnit, requestTTS]

/-! ### Draining a stream of complete lines -/

theorem mkStream_cons (x : Bytes) (ls : List Bytes) :
    mkStream (x :: ls) = x ++ 10 :: mkStream ls := by
  simp [mkStream]

theorem drain_mkStream_cons (parse : Bytes → LineParse) {x : Bytes}
    (h : (10 : Byte) ∉ x) (ls : List Bytes) :
    drainLines parse (mkStream (x :: ls)) =
      if (stripBytes x).isEmpty then drainLines parse (mkStream ls)
      else
        match processLine parse (stripBytes x) with
        | .error m => ⟨[], [], some m⟩
        | .ok outs =>
          ⟨outs ++ (drainLines parse (mkStream ls)).outs,
           (drainLines parse (mkStream ls)).rem,
           (drainLines parse (mkStream ls)).exn⟩ := by
  cases hq : processLines parse (splitLines (mkStream ls)).1 with
  | mk o e =>
    by_cases hs : (stripBytes x).isEmpty
    · cases e <;>
        simp [drainLines, mkStream_cons, splitLines_line_cons (mkStream ls) h,
          processLines, hs, hq]
    · cases hp : processLine parse (stripBytes x) with
      | error m =>
        cases e <;>
          simp [drainLines, mkStream_cons, splitLines_line_cons (mkStream ls) h,
            processLines, hs, hp, hq]
      | ok outs =>
        cases e <;>
          simp [drainLines, mkStream_cons, splitLines_line_cons (mkStream ls) h,
            processLines, hs, hp, hq]

/-- Claim C4: a malformed (non-JSON) complete line contributes no
payload and raises nothing, and the decode of a stream containing it is
identical to the decode of the same stream with that line removed — all
surrounding lines are processed and emitted in order. -/
theorem c4_malformed_line_skipped (parse : Bytes → LineParse)
    (ls1 ls2 : List Bytes) (bad : Bytes)
    (h0 : ∀ l ∈ ls1, (10 : Byte) ∉ l)
    (h1 : (10 : Byte) ∉ bad)
    (h2 : (stripBytes bad).isEmpty = false)
    (h3 : parse (stripBytes bad) = LineParse.jsonError) :
    processLine parse (stripBytes bad) = Except.ok [] ∧
    drainLines parse (mkStream (ls1 ++ bad :: ls2)) =
      drainLines parse (mkStream (ls1 ++ ls2)) := by
  have hbad : processLine parse (stripBytes bad) = Except.ok [] := by
    simp [processLine, h3]
  refine ⟨hbad, ?_⟩
  induction ls1 with
  | nil =>
    simp only [List.nil_append]
    rw [drain_mkStream_cons parse h1 ls2]
    simp [h2, hbad]
  | cons x rest ih =>
    have hx : (10 : Byte) ∉ x := h0 x (List.mem_cons_self x rest)
    have hrest : ∀ l ∈ rest, (10 : Byte) ∉ l :=
      fun l hl => h0 l (List.mem_cons_of_mem x hl)
    simp only [List.cons_append]
    rw [drain_mkStream_cons parse hx (rest ++ bad :: ls2),
      drain_mkStream_cons parse hx (rest ++ ls2), ih hrest]

/-- Witness for C4: removing the malformed line `[63]` from the stream
of lines `[65]`, `[63]`, `[66]` leaves the decode unchanged. -/
theorem c4_malformed_line_witness :
    processLine (fun l => if l = [63] then LineParse.jsonError else LineParse.audio [7])
        (stripBytes [63]) = Except.ok [] ∧
    drainLines (fun l => if l = [63] then LineParse.jsonError else LineParse.audio [7])
        (mkStream ([[65]] ++ [63] :: [[66]])) =
      drainLines (fun l => if l = [63] then LineParse.jsonError else LineParse.audio [7])
        (mkStream ([[65]] ++ [[66]])) :=
  c4_malformed_line_skipped
    (fun l => if l = [63] then LineParse.jsonError else LineParse.audio [7])
    [[65]] [[66]] [63] (by decide) (by decide) (by decide) (by decide)

theorem drain_mkStream_clean (parse : Bytes → LineParse) (ls : List Bytes)
    (h0 : ∀ l ∈ ls, (10 : Byte) ∉ l)
    (h1 : ∀ l ∈ ls, (parse (stripBytes l)).isRaised = false) :
    drainLines parse (mkStream ls) =
      ⟨(ls.map (lineOuts parse)).flatten, [], none⟩ := by
  induction ls with
  | nil => simp [mkStream, drainLines, splitLines, processLines]
  | cons x rest ih =>
    have hx : (10 : Byte) ∉ x := h0 x (List.mem_cons_self x rest)
    have h0r : ∀ l ∈ rest, (10 : Byte) ∉ l :=
      fun l hl => h0 l (List.mem_cons_of_mem x hl)
    have h1r : ∀ l ∈ rest, (parse (stripBytes l)).isRaised = false :=
      fun l hl => h1 l (List.mem_cons_of_mem x hl)
    rw [drain_mkStream_cons parse hx rest, ih h0r h1r]
    by_cases hs : (stripBytes x).isEmpty
    · simp [hs, lineOuts]
    · cases hp : parse (stripBytes x) with
      | raised m =>
        have := h1 x (List.mem_cons_self x rest)
        rw [hp] at this
        simp [LineParse.isRaised] at this
      | jsonError => simp [hs, processLine, hp, lineOuts]
      | noAudio => simp [hs, processLine, hp, lineOuts]
      | audio c =>
        by_cases he : (stripWavHeader c).isEmpty <;>
          simp [hs, processLine, hp, lineOuts, he]

/-- Claim C10 (implicit): only JSON parse failures are skipped by the
per-line handler — a line whose handling raises any other exception
(such as a `binascii.Error` from an invalid base64 `audioContent`)
aborts the whole exchange: lines after it are never processed, and in
the client variant the dispatcher loop reports the escaped exception as
a single `RUNTIME_ERROR` callback after the payloads already emitted. -/
theorem c10_base64_abort (parse : Bytes → LineParse) (ls1 ls2 : List Bytes)
    (bad : Bytes) (m : String) (txt rid cur body : String)
    (h0 : ∀ l ∈ ls1, (10 : Byte) ∉ l)
    (h0b : ∀ l ∈ ls1, (parse (stripBytes l)).isRaised = false)
    (h1 : (10 : Byte) ∉ bad)
    (h2 : (stripBytes bad).isEmpty = false)
    (h3 : parse (stripBytes bad) = LineParse.raised m)
    (h4 : txt ≠ "") :
    drainLines parse (mkStream (ls1 ++ bad :: ls2)) =
      ⟨(ls1.map (lineOuts parse)).flatten, [], some m⟩ ∧
    processUnit parse ⟨200, Except.ok body, [mkStream (ls1 ++ bad :: ls2)], none⟩ cur
        ⟨txt, rid, false⟩ =
      ((ls1.map (lineOuts parse)).flatten.map (fun b => ClientEvent.audioChunk b rid) ++
         [ClientEvent.errorCb rid ErrorCode.runtimeError m], rid, true) := by
  have hdrain : drainLines parse (mkStream (ls1 ++ bad :: ls2)) =
      ⟨(ls1.map (lineOuts parse)).flatten, [], some m⟩ := by
    induction ls1 with
    | nil =>
      simp only [List.nil_append]
      rw [drain_mkStream_cons parse h1 ls2]
      simp [h2, processLine, h3]
    | cons x rest ih =>
      have hx : (10 : Byte) ∉ x := h0 x (List.mem_cons_self x rest)
      have h0r : ∀ l ∈ rest, (10 : Byte) ∉ l :=
        fun l hl => h0 l (List.mem_cons_of_mem x hl)
      have h0br : ∀ l ∈ rest, (parse (stripBytes l)).isRaised = false :=
        fun l hl => h0b l (List.mem_cons_of_mem x hl)
      simp only [List.cons_append]
      rw [drain_mkStream_cons parse hx (rest ++ bad :: ls2), ih h0r h0br]
      by_cases hs : (stripBytes x).isEmpty
      · simp [hs, lineOuts]
      · cases hp : parse (stripBytes x) with
        | raised m2 =>
          have := h0b x (List.mem_cons_self x rest)
          rw [hp] at this
          simp [LineParse.isRaised] at this
        | jsonError => simp [hs, processLine, hp, lineOuts]
        | noAudio => simp [hs, processLine, hp, lineOuts]
        | audio c =>
          by_cases he : (stripWavHeader c).isEmpty <;>
            simp [hs, processLine, hp, lineOuts, he]
  refine ⟨hdrain, ?_⟩
  have hfeed : feedChunks parse [] [mkStream (ls1 ++ bad :: ls2)] =
      ⟨(ls1.map (lineOuts parse)).flatten, [], some m⟩ := by
    simp [feedChunks, hdrain]
  have hsynth : synthesizeClient rid parse
      ⟨200, Except.ok body, [mkStream (ls1 ++ bad :: ls2)], none⟩ =
      ((ls1.map (lineOuts parse)).flatten.map (fun b => ClientEvent.audioChunk b rid),
       some m) := by
    simp [synthesizeClient, hfeed]
  simp [processUnit, h4, hsynth]

/-- Witness for C10: the stream with lines `[65]`, `[66]`, `[67]` where
`[66]` raises — the payload of `[65]` is emitted, `[67]` is never
processed, and the loop reports one `RUNTIME_ERROR`. -/
theorem c10_base64_abort_witness :
    drainLines (fun l => if l = [66] then LineParse.raised "boom" else LineParse.audio [7])
        (mkStream ([[65]] ++ [66] :: [[67]])) =
      ⟨([[65]].map (lineOuts
          (fun l => if l = [66] then LineParse.raised "boom" else LineParse.audio [7]))).flatten,
       [], some "boom"⟩ ∧
    processUnit (fun l => if l = [66] then LineParse.raised "boom" else LineParse.audio [7])
        ⟨200, Except.ok "", [mkStream ([[65]] ++ [66] :: [[67]])], none⟩ ""
        ⟨"x", "r", false⟩ =
      (([[65]].map (lineOuts
          (fun l => if l = [66] then LineParse.raised "boom" else LineParse.audio [7]))).flatten.map
          (fun b => ClientEvent.audioChunk b "r") ++
         [ClientEvent.errorCb "r" ErrorCode.runtimeError "boom"], "r", true) :=
  c10_base64_abort
    (fun l => if l = [66] then LineParse.raised "boom" else LineParse.audio [7])
    [[65]] [[67]] [66] "boom" "x" "r" "" ""
    (by decide) (by decide) (by decide) (by decide) (by decide) (by decide)

/-! ### Dispatcher loop resilience -/

theorem countP_runtime_map_chunk (l : List Bytes) (rid : String) :
    (l.map (fun b => ClientEvent.audioChunk b rid)).countP
      (isClientErrorKind ErrorCode.runtimeError) = 0 := by
  induction l with
  | nil => simp
  | cons b bs ih => simp [List.countP_cons, isClientErrorKind, ih]

theorem synthClient_some_countP (rid : String) (parse : Bytes → LineParse)
    (ex : Exchange) (m : String)
    (h : (synthesizeClient rid parse ex).2 = some m) :
    (synthesizeClient rid parse ex).1.countP
      (isClientErrorKind ErrorCode.runtimeError) = 0 := by
  unfold synthesizeClient at h ⊢
  by_cases hst : ex.status ≠ 200
  · rw [if_pos hst] at h
    cases hb : ex.bodyText <;> simp [hb] at h
  · rw [if_neg hst] at h ⊢
    cases hf : feedChunks parse [] ex.chunks with
    | mk outs rem exn =>
      cases exn with
      | some m2 =>
        simp only [hf]
        exact countP_runtime_map_chunk outs rid
      | none =>
        cases hmid : ex.midStreamError with
        | some m2 => simp [hf, hmid] at h
        | none =>
          simp only [hf, hmid]
          rw [List.countP_append]
          rw [countP_runtime_map_chunk outs rid,
            countP_runtime_map_chunk (processRemainder parse rem).1 rid]

/-- Claim C7: dispatcher resilience — when an exchange raises an
exception that escapes (other than cancellation), the loop body catches
it, reports exactly one `RUNTIME_ERROR` callback attributed to the
current unit's request id, and the loop goes on to process the
subsequently queued units. -/
theorem c7_loop_resilience (parse : Bytes → LineParse) (exOf : TextUnit → Exchange)
    (cur : String) (u : TextUnit) (us : List TextUnit) (m : String)
    (h1 : u.text ≠ "")
    (h2 : (synthesizeClient u.requestId parse (exOf u)).2 = some m) :
    processUnit parse (exOf u) cur u =
      ((synthesizeClient u.requestId parse (exOf u)).1 ++
        [ClientEvent.errorCb u.requestId ErrorCode.runtimeError m], u.requestId, true) ∧
    (processUnit parse (exOf u) cur u).1.countP
      (isClientErrorKind ErrorCode.runtimeError) = 1 ∧
    processLoop parse exOf cur (u :: us) =
      ((processUnit parse (exOf u) cur u).1 ++
        (processLoop parse exOf u.requestId us).1,
       (processLoop parse exOf u.requestId us).2) := by
  have hcount := synthClient_some_countP u.requestId parse (exOf u) m h2
  have hpu : processUnit parse (exOf u) cur u =
      ((synthesizeClient u.requestId parse (exOf u)).1 ++
        [ClientEvent.errorCb u.requestId ErrorCode.runtimeError m],
       u.requestId, true) := by
    cases hs : synthesizeClient u.requestId parse (exOf u) with
    | mk evs e =>
      rw [hs] at h2
      simp only at h2
      subst h2
      simp [processUnit, h1, hs]
  refine ⟨hpu, ?_, ?_⟩
  · rw [hpu]
    simp only [List.countP_append, List.countP_cons]
    simp [isClientErrorKind, hcount]
  · simp only [processLoop]
    rw [hpu]

/-- Witness for C7: a one-unit queue whose exchange raises `"boom"`. -/
theorem c7_loop_resilience_witness :
    processUnit (fun _ => LineParse.raised "boom")
        ⟨200, Except.ok "", [[65, 10]], none⟩ "" ⟨"x", "r", false⟩ =
      ((synthesizeClient "r" (fun _ => LineParse.raised "boom")
          ⟨200, Except.ok "", [[65, 10]], none⟩).1 ++
        [ClientEvent.errorCb "r" ErrorCode.runtimeError "boom"], "r", true) ∧
    (processUnit (fun _ => LineParse.raised "boom")
        ⟨200, Except.ok "", [[65, 10]], none⟩ "" ⟨"x", "r", false⟩).1.countP
      (isClientErrorKind ErrorCode.runtimeError) = 1 ∧
    processLoop (fun _ => LineParse.raised "boom")
        (fun _ => ⟨200, Except.ok "", [[65, 10]], none⟩) "" [⟨"x", "r", false⟩] =
      ((processUnit (fun _ => LineParse.raised "boom")
          ⟨200, Except.ok "", [[65, 10]], none⟩ "" ⟨"x", "r", false⟩).1 ++
        (processLoop (fun _ => LineParse.raised "boom")
          (fun _ => ⟨200, Except.ok "", [[65, 10]], none⟩) "r" []).1,
       (processLoop (fun _ => LineParse.raised "boom")
          (fun _ => ⟨200, Except.ok "", [[65, 10]], none⟩) "r" []).2) :=
  c7_loop_resilience (fun _ => LineParse.raised "boom")
    (fun _ => ⟨200, Except.ok "", [[65, 10]], none⟩) "" ⟨"x", "r", false⟩ [] "boom"
    (by decide) (by decide)

/-! ### The audio-start latch -/

theorem emitRun_false_eq (rid : String) (ps : List Bytes) :
    emitRun rid false ps = (ps.map TTSEvent.audioData, false) := by
  induction ps with
  | nil => rfl
  | cons p ps ih => simp [emitRun, ih]

theorem emitRun_true_cons (rid : String) (p : Bytes) (ps : List Bytes) :
    emitRun rid true (p :: ps) =
      (TTSEvent.audioStart rid :: TTSEvent.audioData p :: ps.map TTSEvent.audioData,
       false) := by
  simp [emitRun, emitRun_false_eq]

theorem emitRun_append (rid : String) (f : Bool) (A B : List Bytes) :
    emitRun rid f (A ++ B) =
      ((emitRun rid f A).1 ++ (emitRun rid (emitRun rid f A).2 B).1,
       (emitRun rid (emitRun rid f A).2 B).2) := by
  induction A generalizing f with
  | nil => simp [emitRun]
  | cons a A ih => simp [emitRun, ih]

theorem countP_start_map_data (rid : String) (l : List Bytes) :
    (l.map TTSEvent.audioData).countP (isStart rid) = 0 := by
  induction l with
  | nil => simp
  | cons b bs ih => simp [List.countP_cons, isStart, ih]

theorem c2_core (rid : String) (P : List Bytes) (T : List TTSEvent)
    (hT1 : T.countP (isStart rid) = 0) (hT2 : T.countP isData = 0) :
    (((emitRun rid true P).1 ++ T).countP (isStart rid) =
      if ((emitRun rid true P).1 ++ T).any isData then 1 else 0) ∧
    (((emitRun rid true P).1 ++ T).any isData = true →
      ((emitRun rid true P).1 ++ T).findIdx (isStart rid) = 0 ∧
      ((emitRun rid true P).1 ++ T).findIdx isData = 1) := by
  cases P with
  | nil =>
    have hT2a : ∀ a ∈ T, ¬ isData a = true := List.countP_eq_zero.mp hT2
    have hany : T.any isData = false := by
      rw [List.any_eq_false]
      exact hT2a
    simp [emitRun, hany, hT1]
  | cons p ps =>
    rw [emitRun_true_cons]
    refine ⟨?_, fun _ => ⟨?_, ?_⟩⟩
    · simp [List.countP_cons, List.countP_append, isStart, isData,
        countP_start_map_data, hT1]
    · simp [List.findIdx_cons, isStart]
    · simp [List.findIdx_cons, isStart, isData]

/-- Claim C2 (amended): within one synthesize exchange, `audioStart` is
emitted exactly once when the exchange produces at least one non-empty
decoded payload and not at all otherwise (it waits for the first
non-empty payload, even when earlier decoded lines strip to zero
bytes), and it is the very first event, immediately followed by the
first `audioData`. -/
theorem c2_audio_start_per_exchange (rid : String) (parse : Bytes → LineParse)
    (ex : Exchange) :
    ((synthesizeExt rid parse ex).1.countP (isStart rid) =
      if (synthesizeExt rid parse ex).1.any isData then 1 else 0) ∧
    ((synthesizeExt rid parse ex).1.any isData = true →
      (synthesizeExt rid parse ex).1.findIdx (isStart rid) = 0 ∧
      (synthesizeExt rid parse ex).1.findIdx isData = 1) := by
  unfold synthesizeExt
  by_cases hst : ex.status ≠ 200
  · rw [if_pos hst]
    cases hb : ex.bodyText with
    | ok body =>
      have := c2_core rid []
        [TTSEvent.errorEvt rid ErrorCode.vendorError
          ("API error: " ++ toString ex.status)]
        (by simp [List.countP_cons, isStart]) (by simp [List.countP_cons, isData])
      simpa [emitRun] using this
    | error m =>
      have := c2_core rid [] [TTSEvent.errorEvt rid ErrorCode.networkError m]
        (by simp [List.countP_cons, isStart]) (by simp [List.countP_cons, isData])
      simpa [emitRun] using this
  · rw [if_neg hst]
    cases hf : feedChunks parse [] ex.chunks with
    | mk outs rem exn =>
      cases exn with
      | some m =>
        have := c2_core rid outs [] (by simp) (by simp)
        simpa using this
      | none =>
        cases hmid : ex.midStreamError with
        | some m =>
          have := c2_core rid outs [TTSEvent.errorEvt rid ErrorCode.networkError m]
            (by simp [List.countP_cons, isStart]) (by simp [List.countP_cons, isData])
          simpa using this
        | none =>
          have happ := congrArg Prod.fst
            (emitRun_append rid true outs (processRemainder parse rem).1)
          have hcore := c2_core rid (outs ++ (processRemainder parse rem).1) []
            (by simp) (by simp)
          simp only [List.append_nil] at hcore
          rw [happ] at hcore
          simpa using hcore

/-- Counterexample for C2 as stated: with two non-empty text units
sharing the request id `"r"`, each exchange re-initializes the
`first_audio` latch, so `audioStart` is emitted twice for `"r"` — not
exactly once per requestId. -/
theorem c2_audio_start_counterexample :
    (requestSeq (fun _ => LineParse.audio [1])
        (fun _ => ⟨200, Except.ok "", [[65, 10]], none⟩)
        [⟨"a", "r", false⟩, ⟨"b", "r", true⟩]).countP (isStart "r") = 2 ∧
    (requestSeq (fun _ => LineParse.audio [1])
        (fun _ => ⟨200, Except.ok "", [[65, 10]], none⟩)
        [⟨"a", "r", false⟩, ⟨"b", "r", true⟩]).countP (isStart "r") ≠ 1 := by
  decide

/-- Witness for C2 (amended): an exchange producing one payload emits
`audioStart` first and the first `audioData` immediately after. -/
theorem c2_audio_start_witness :
    (synthesizeExt "r" (fun _ => LineParse.audio [1])
        ⟨200, Except.ok "", [[65, 10]], none⟩).1.findIdx (isStart "r") = 0 ∧
    (synthesizeExt "r" (fun _ => LineParse.audio [1])
        ⟨200, Except.ok "", [[65, 10]], none⟩).1.findIdx isData = 1 :=
  (c2_audio_start_per_exchange "r" (fun _ => LineParse.audio [1])
    ⟨200, Except.ok "", [[65, 10]], none⟩).2 (by decide)

/-- Counterexample for C5 as stated: a non-success exchange whose error
body cannot be read (an `aiohttp.ClientError` while awaiting
`response.text()`) is caught by the outer handler and reported as a
single `NETWORK_ERROR` — no `VendorError` event is emitted for this
non-success exchange. -/
theorem c5_vendor_error_counterexample :
    (synthesizeExt "r1" (fun _ => LineParse.jsonError)
        ⟨500, Except.error "connection reset", [], none⟩).1 =
      [TTSEvent.errorEvt "r1" ErrorCode.networkError "connection reset"] ∧
    (synthesizeExt "r1" (fun _ => LineParse.jsonError)
        ⟨500, Except.error "connection reset", [], none⟩).1.countP
      (isErrorKind ErrorCode.vendorError) = 0 := by
  decide

/-- Claim C5 (amended): for every exchange with a non-success status the
synthesizer emits exactly one error event and nothing escapes, with zero
`audioData` and zero `audioEnd` events, and the decoder is never invoked
(the result is independent of the body chunks and of the line handler);
the error kind is `VendorError` when the error body is read
successfully, and a client error while reading the body does not escape
but is reported as the single error with kind `NetworkError` instead. -/
theorem c5_error_path (rid : String) (parse parseB : Bytes → LineParse)
    (ex : Exchange) (chunksB : List Bytes) (midB : Option String)
    (h : ex.status ≠ 200) :
    (∀ body, ex.bodyText = Except.ok body →
      synthesizeExt rid parse ex =
        ([TTSEvent.errorEvt rid ErrorCode.vendorError
            ("API error: " ++ toString ex.status)], none)) ∧
    (∀ m, ex.bodyText = Except.error m →
      synthesizeExt rid parse ex =
        ([TTSEvent.errorEvt rid ErrorCode.networkError m], none)) ∧
    (synthesizeExt rid parse ex).1.countP isData = 0 ∧
    (synthesizeExt rid parse ex).1.countP isAudioEnd = 0 ∧
    (synthesizeExt rid parse ex).1.length = 1 ∧
    (synthesizeExt rid parse ex).2 = none ∧
    synthesizeExt rid parseB ⟨ex.status, ex.bodyText, chunksB, midB⟩ =
      synthesizeExt rid parse ex := by
  cases hb : ex.bodyText with
  | ok body => simp [synthesizeExt, h, hb, isData, isAudioEnd]
  | error m => simp [synthesizeExt, h, hb, isData, isAudioEnd]

/-- Witness for C5 (amended): a 404 exchange with a readable body emits
the single `VendorError` event. -/
theorem c5_error_path_witness :
    synthesizeExt "r1" (fun _ => LineParse.jsonError)
        ⟨404, Except.ok "not found", [], none⟩ =
      ([TTSEvent.errorEvt "r1" ErrorCode.vendorError
          ("API error: " ++ toString (404 : Nat))], none) :=
  (c5_error_path "r1" (fun _ => LineParse.jsonError) (fun _ => LineParse.jsonError)
    ⟨404, Except.ok "not found", [], none⟩ [] none (by decide)).1 "not found" rfl
